import Mathlib

/-!
Verification of the numaplane PipelineRollout reconciliation engine
(`internal/controller/pipelinerollout_controller.go`) through a shallow
embedding in Lean.  Go strings are modelled as `List Char` where character
indexing matters and as `String` elsewhere; Go maps (`map[string]string`,
decoded JSON documents) are modelled as association lists in the canonical
form a Go map denotes (unique keys, one canonical order); `time.Time`
values are modelled as `Nat`, with `0` the zero time (`initTime` is never
assigned in the source, so it stays the zero value); int64 counters are
modelled as `Int`.  The `annots` field models the Go `Annotations` field.
-/

namespace Numaplane

/-! ## Queue key encoding (`namespacedNameToKey` / `keyToNamespacedName`) -/

/-- Model of `k8stypes.NamespacedName`, with Go strings as `List Char`. -/
structure NamespacedName where
  nspace : List Char
  name : List Char
deriving DecidableEq, Repr

/-- Model of `namespacedNameToKey`:
`fmt.Sprintf("%s/%s", namespacedName.Namespace, namespacedName.Name)`. -/
def namespacedNameToKey (nn : NamespacedName) : List Char :=
  nn.nspace ++ '/' :: nn.name

/-- Model of `keyToNamespacedName`: `strings.Index(key, "/")` (first
occurrence, `-1` when absent, modelled as `none`), then `key[0:index]` and
`key[index+1:]`.  The `-1` branch returns an error (`none` here). -/
def keyToNamespacedName (key : List Char) : Option NamespacedName :=
  match key.findIdx? (fun c => c = '/') with
  | none => none
  | some index => some ⟨key.take index, key.drop (index + 1)⟩

/-! ## Work-queue re-add decision (`processQueueKey`) -/

/-- Re-add operation `processQueueKey` performs on the queue after
processing a key. -/
inductive QueueOp where
  | addRateLimited
  | addImmediate
  | addAfter (delay : Nat)
  | noReAdd
deriving DecidableEq, Repr

/-- Model of the `processQueueKey` re-add logic (lines 319-333): on error
`AddRateLimited`; else if `result.Requeue` then `AddRateLimited`; else if
`result.RequeueAfter > 0` then `AddAfter(key, result.RequeueAfter)`; else
nothing. -/
def processQueueKeyReAdd (errOccurred : Bool) (requeue : Bool)
    (requeueAfter : Nat) : QueueOp :=
  if errOccurred then .addRateLimited
  else if requeue then .addRateLimited
  else if requeueAfter > 0 then .addAfter requeueAfter
  else .noReAdd

/-- Re-add decision as the spec words it ("on explicit requeue it is
re-added immediately"): error → rate-limited, requeue → immediate,
requeue-after(d) → after exactly d, otherwise nothing. -/
def specReAddDecision (errOccurred : Bool) (requeue : Bool)
    (requeueAfter : Nat) : QueueOp :=
  if errOccurred then .addRateLimited
  else if requeue then .addImmediate
  else if requeueAfter > 0 then .addAfter requeueAfter
  else .noReAdd

/-! ## Worker pool shutdown accounting (`runWorkers` / `runWorker` / `Shutdown`) -/

/-- Constant `numWorkers = 16` from the source. -/
def numWorkers : Nat := 16

/-- Total amount `runWorkers` adds to `shutdownWorkerWaitGroup`: the loop
body executes `shutdownWorkerWaitGroup.Add(numWorkers)` once per iteration,
for `i` from `0` to `n-1`. -/
def runWorkersTotalAdd (n : Nat) : Nat :=
  (List.range n).foldl (fun acc _ => acc + n) 0

/-- Total number of `shutdownWorkerWaitGroup.Done()` calls emitted on queue
shutdown: each of the `n` spawned `runWorker` goroutines calls `Done`
exactly once, when `queue.Get()` reports shutdown. -/
def workersTotalDone (n : Nat) : Nat := n

/-! ## Pause timing bookkeeping (`setChildResourcesPauseCondition`) -/

/-- Model of `PauseStatus`: the two timestamps, with `0` as the zero time
(`metav1.NewTime(initTime)` where `initTime` is never assigned). -/
structure PauseStatus where
  lastPauseBeginTime : Nat
  lastPauseEndTime : Nat
deriving DecidableEq, Repr

/-- Model of `setChildResourcesPauseCondition` restricted to its effect on
the two pause timestamps (lines 638-661), with `now` the value of
`time.Now()`.  `a.After(b)` is strict, modelled as `b < a`. -/
def setChildResourcesPauseCondition (phase : String) (now : Nat)
    (ps : PauseStatus) : PauseStatus :=
  if phase = "Paused" ∨ phase = "Pausing" then
    if ps.lastPauseBeginTime = 0 ∨ ¬ ps.lastPauseEndTime < ps.lastPauseBeginTime then
      { ps with lastPauseBeginTime := now }
    else ps
  else
    if ps.lastPauseBeginTime ≠ 0 ∧ ¬ ps.lastPauseBeginTime < ps.lastPauseEndTime then
      { ps with lastPauseEndTime := now }
    else ps

/-! ## Health projection (`getPipelineChildResourceHealth` /
`setChildResourcesHealthCondition`) -/

/-- Model of a `metav1.Condition` as used by the health projection. -/
structure PipelineCondition where
  ctype : String
  status : String
  reason : String
deriving DecidableEq, Repr

/-- Predicate for the subcomponent condition types the health probe
inspects, combined with its non-true status test. -/
def isUnhealthySubcomponentCondition (cond : PipelineCondition) : Bool :=
  (cond.ctype = "VerticesHealthy" ∨ cond.ctype = "SideInputsManagersHealthy" ∨
    cond.ctype = "DaemonServiceHealthy") ∧ cond.status ≠ "True"

/-- Model of `getPipelineChildResourceHealth`: scan the conditions in list
order; the first subcomponent condition with non-true status yields its
(status, reason); otherwise ("True", ""). -/
def getPipelineChildResourceHealth : List PipelineCondition → String × String
  | [] => ("True", "")
  | cond :: rest =>
    if isUnhealthySubcomponentCondition cond then (cond.status, cond.reason)
    else getPipelineChildResourceHealth rest

/-- Model of `pipelineObservedGenerationCurrent`:
`generation <= observedGeneration`. -/
def pipelineObservedGenerationCurrent (generation observedGeneration : Int) : Bool :=
  generation ≤ observedGeneration

/-- Health condition the projection writes into the rollout status. -/
inductive HealthCondition where
  | childResourcesUnhealthy (reason msg : String)
  | childResourcesHealthUnknown (reason msg : String)
  | childResourcesHealthy
deriving DecidableEq, Repr

/-- Model of `setChildResourcesHealthCondition` (lines 615-636): strict
first-match if-chain, with the numaflow phase constants as strings
(`PipelinePhaseUnknown` is the empty string). -/
def setChildResourcesHealthCondition (phase : String)
    (generation observedGeneration : Int)
    (conditions : List PipelineCondition) : HealthCondition :=
  let health := getPipelineChildResourceHealth conditions
  if health.2 = "Progressing" ∨
      pipelineObservedGenerationCurrent generation observedGeneration = false then
    .childResourcesUnhealthy "Progressing" "Pipeline Progressing"
  else if phase = "Failed" then
    .childResourcesUnhealthy "PipelineFailed" "Pipeline Phase=Failed"
  else if health.1 = "False" then
    .childResourcesUnhealthy "PipelineFailed"
      "Pipeline Failed, Pipeline Child Resource(s) Unhealthy"
  else if phase = "Paused" ∨ phase = "Pausing" then
    .childResourcesHealthUnknown "PipelineUnknown" "Pipeline Pausing - health unknown"
  else if phase = "Deleting" then
    .childResourcesUnhealthy "PipelineDeleting" "Pipeline Deleting"
  else if phase = "" ∨ health.1 = "Unknown" then
    .childResourcesHealthUnknown "PipelineUnknown" "Pipeline Phase Unknown"
  else
    .childResourcesHealthy

/-- Rule (1) of the health projection as claim C5 words it: ANY subcomponent
condition is non-true, regardless of its reason. -/
def anySubcomponentNonTrue (conditions : List PipelineCondition) : Bool :=
  conditions.any isUnhealthySubcomponentCondition

/-- Health projection as claim C5 words it, to be compared against the
code's `setChildResourcesHealthCondition`: identical chain except that rule
(1) fires whenever any subcomponent condition is non-true. -/
def claimedHealthProjection (phase : String)
    (generation observedGeneration : Int)
    (conditions : List PipelineCondition) : HealthCondition :=
  let health := getPipelineChildResourceHealth conditions
  if anySubcomponentNonTrue conditions ∨
      pipelineObservedGenerationCurrent generation observedGeneration = false then
    .childResourcesUnhealthy "Progressing" "Pipeline Progressing"
  else if phase = "Failed" then
    .childResourcesUnhealthy "PipelineFailed" "Pipeline Phase=Failed"
  else if health.1 = "False" then
    .childResourcesUnhealthy "PipelineFailed"
      "Pipeline Failed, Pipeline Child Resource(s) Unhealthy"
  else if phase = "Paused" ∨ phase = "Pausing" then
    .childResourcesHealthUnknown "PipelineUnknown" "Pipeline Pausing - health unknown"
  else if phase = "Deleting" then
    .childResourcesUnhealthy "PipelineDeleting" "Pipeline Deleting"
  else if phase = "" ∨ health.1 = "Unknown" then
    .childResourcesHealthUnknown "PipelineUnknown" "Pipeline Phase Unknown"
  else
    .childResourcesHealthy

/-- Amended rule (1): the health probe result, written declaratively as the
FIRST subcomponent condition with non-true status in list order. -/
def firstUnhealthySubcomponent (conditions : List PipelineCondition) :
    Option PipelineCondition :=
  conditions.find? isUnhealthySubcomponentCondition

/-- Health projection as amended for claim C5: rule (1) fires when the first
non-true subcomponent condition carries reason Progressing (or the observed
generation is behind); rules (3) and (6) test that same first condition's
status. -/
def amendedHealthProjection (phase : String)
    (generation observedGeneration : Int)
    (conditions : List PipelineCondition) : HealthCondition :=
  let probeStatus :=
    match firstUnhealthySubcomponent conditions with
    | some cond => cond.status
    | none => "True"
  let probeReason :=
    match firstUnhealthySubcomponent conditions with
    | some cond => cond.reason
    | none => ""
  if probeReason = "Progressing" ∨
      pipelineObservedGenerationCurrent generation observedGeneration = false then
    .childResourcesUnhealthy "Progressing" "Pipeline Progressing"
  else if phase = "Failed" then
    .childResourcesUnhealthy "PipelineFailed" "Pipeline Phase=Failed"
  else if probeStatus = "False" then
    .childResourcesUnhealthy "PipelineFailed"
      "Pipeline Failed, Pipeline Child Resource(s) Unhealthy"
  else if phase = "Paused" ∨ phase = "Pausing" then
    .childResourcesHealthUnknown "PipelineUnknown" "Pipeline Pausing - health unknown"
  else if phase = "Deleting" then
    .childResourcesUnhealthy "PipelineDeleting" "Pipeline Deleting"
  else if phase = "" ∨ probeStatus = "Unknown" then
    .childResourcesHealthUnknown "PipelineUnknown" "Pipeline Phase Unknown"
  else
    .childResourcesHealthy

/-! ## Decoded JSON documents and string maps -/

/-!
Decoded generic JSON documents (Go `interface{}` after `json.Unmarshal`).
Objects (`JObj`) are association sequences in the canonical form the
decoded Go map denotes (unique keys, one canonical order); arrays are
`JArr`; numbers are modelled as `Int` (the claims never depend on numeric
values).
-/
mutual
inductive JValue where
  | null : JValue
  | bool : Bool → JValue
  | num : Int → JValue
  | str : String → JValue
  | arr : JArr → JValue
  | obj : JObj → JValue

inductive JArr where
  | nil : JArr
  | cons : JValue → JArr → JArr

inductive JObj where
  | nil : JObj
  | cons : String → JValue → JObj → JObj
end

deriving instance DecidableEq for JValue
deriving instance DecidableEq for JArr
deriving instance DecidableEq for JObj

/-- Lookup in a decoded JSON object (Go `m[key]`). -/
def lookupJ : JObj → String → Option JValue
  | JObj.nil, _ => none
  | JObj.cons k v rest, key => if k = key then some v else lookupJ rest key

/-- Removal of a key from a decoded JSON object (Go `delete(m, key)`); keys
are unique, so removing the first occurrence is exact. -/
def removeKey : JObj → String → JObj
  | JObj.nil, _ => JObj.nil
  | JObj.cons k v rest, key =>
    if k = key then rest else JObj.cons k v (removeKey rest key)

/-- Replacement of the value stored at a key, position preserved
(Go `m[key] = val` for a key already present). -/
def setKey : JObj → String → JValue → JObj
  | JObj.nil, _, _ => JObj.nil
  | JObj.cons k v rest, key, val =>
    if k = key then JObj.cons key val rest else JObj.cons k v (setKey rest key val)

/-- Lookup in a `map[string]string` (Go `m[key]`). -/
def lookupKV : List (String × String) → String → Option String
  | [], _ => none
  | (k, v) :: rest, key => if k = key then some v else lookupKV rest key

/-- Assignment into a `map[string]string` (Go `m[k] = v`): overwrite the
existing entry for `k` or add one. -/
def insertKV : List (String × String) → String → String → List (String × String)
  | [], k, v => [(k, v)]
  | (k', v') :: rest, k, v =>
    if k' = k then (k, v) :: rest else (k', v') :: insertKV rest k v

/-- Union of string maps as the merge loops compute it:
`for key, value := range updates { base[key] = value }`. -/
def unionKV (base updates : List (String × String)) : List (String × String) :=
  updates.foldl (fun acc kv => insertKV acc kv.1 kv.2) base

/-- First component of an `Option`, with a fallback (used to phrase the
union of maps with the second map taking precedence). -/
def orOpt (a b : Option String) : Option String :=
  match a with
  | some v => some v
  | none => b

/-! ## Generic child objects, ownership, merge, diff exclusion -/

/-- Model of `metav1.OwnerReference`, keeping the fields `checkOwnerRef`
reads. -/
structure OwnerReference where
  kind : String
  uid : String
deriving DecidableEq, Repr

/-- Model of `kubernetes.GenericObject`: the child pipeline object.  `spec`
and `status` are decoded documents (the Go fields hold their raw JSON);
`annots` models `Annotations`; `nspace` models `Namespace`. -/
structure GenericObject where
  kind : String
  apiVersion : String
  name : String
  nspace : String
  uid : String
  generation : Int
  labels : List (String × String)
  annots : List (String × String)
  ownerReferences : List OwnerReference
  spec : JValue
  status : JValue
deriving DecidableEq

/-- Model of `checkOwnerRef`: no owners → false; otherwise true iff some
reference has kind "PipelineRollout" and the rollout's UID. -/
def checkOwnerRef (ownerRefs : List OwnerReference) (uid : String) : Bool :=
  if ownerRefs = [] then false
  else ownerRefs.any (fun ref => ref.kind = "PipelineRollout" ∧ ref.uid = uid)

/-- Model of `merge` (lines 439-455): deep copy of the existing pipeline
(copying is identity in a pure embedding), spec replaced wholesale by the
new pipeline's spec, labels and annotations written over entry by entry
(Go `resultPipeline.Labels[key] = value` per entry of the new pipeline;
the nil-map initialisation is the empty list here). -/
def merge (existingPipeline newPipeline : GenericObject) : GenericObject :=
  { existingPipeline with
      spec := newPipeline.spec
      labels := unionKV existingPipeline.labels newPipeline.labels
      annots := unionKV existingPipeline.annots newPipeline.annots }

/-- Modelled from the spec: `util.RemovePaths(specAsMap,
["lifecycle.desiredPhase"], ".")` — the utility's source is not under
`src/`; per the spec it removes the one excluded field path, i.e. the
`desiredPhase` entry inside the `lifecycle` sub-map when `lifecycle` is
present and is a map, and otherwise leaves the document unchanged. -/
def removeLifecycleDesiredPhase (specAsMap : JObj) : JObj :=
  match lookupJ specAsMap "lifecycle" with
  | some (JValue.obj lifecycleMap) =>
    setKey specAsMap "lifecycle" (JValue.obj (removeKey lifecycleMap "desiredPhase"))
  | _ => specAsMap

/-- Model of `withoutDesiredPhase` (lines 719-735): decode the spec (errors
when it is not a JSON object, modelled as `none`), remove
`lifecycle.desiredPhase`, then remove `lifecycle` itself when it is present
as a map and empty. -/
def withoutDesiredPhase (obj : GenericObject) : Option JObj :=
  match obj.spec with
  | JValue.obj specAsMap =>
    let m := removeLifecycleDesiredPhase specAsMap
    match lookupJ m "lifecycle" with
    | some (JValue.obj lifecycleMap) =>
      if lifecycleMap = JObj.nil then some (removeKey m "lifecycle") else some m
    | _ => some m
  | _ => none

/-- Model of `childNeedsUpdating` (lines 885-900): both specs stripped of
`lifecycle.desiredPhase`, then `!reflect.DeepEqual` of the two decoded
documents; decode errors propagate (`none`). -/
def childNeedsUpdating (a b : GenericObject) : Option Bool :=
  match withoutDesiredPhase a, withoutDesiredPhase b with
  | some ma, some mb => some (decide (¬ ma = mb))
  | _, _ => none

/-! ## In-progress upgrade strategy state machine (`processExistingPipeline`) -/

/-- Model of `apiv1.UpgradeStrategy`; the same enumeration doubles as the
upgrade-strategy TYPE recommended by `usde.ResourceNeedsUpdating`
(`UpgradeStrategyNoOp`, `UpgradeStrategyApply`, `UpgradeStrategyPPND`,
`UpgradeStrategyProgressive`). -/
inductive UpgradeStrategy where
  | noop
  | apply
  | ppnd
  | progressive
deriving DecidableEq, Repr

/-- Operator-configured default strategy (`config.PPNDStrategyID`,
`config.ProgressiveStrategyID`, or anything else). -/
inductive StrategyID where
  | ppndID
  | progressiveID
  | otherID
deriving DecidableEq, Repr

/-- Inputs of one `processExistingPipeline` call that determine the
in-progress strategy after the call: the strategy read from
`inProgressStrategyMgr.getStrategy`, the user-preferred strategy, the
decision-engine outputs, the PPND readiness probe (`none` = not enough
information, early return), and the completion outcomes of the strategy
executions (`none` = the execution returned an error). -/
structure StrategyStepInput where
  current : UpgradeStrategy
  userPreferred : StrategyID
  pipelineNeedsToUpdate : Bool
  upgradeStrategyType : UpgradeStrategy
  needPPND : Option Bool
  ppndDone : Option Bool
  progressiveDone : Option Bool
deriving DecidableEq, Repr

/-- Outcome of one `processExistingPipeline` call for the strategy state
machine: the in-progress strategy after the call, and whether the
decision logic for picking a NEW strategy was evaluated at all. -/
structure StrategyStepResult where
  strategy : UpgradeStrategy
  decisionEvaluated : Bool
deriving DecidableEq, Repr

/-- Model of the strategy handling in `processExistingPipeline` (lines
484-563): read the in-progress strategy; only when it is `NoOp` run the
decision logic (PPND readiness probe with early return on `nil`, or the
Progressive recommendation); then execute the selected strategy, calling
`unsetStrategy` exactly when the execution reports done. -/
def processExistingPipelineStrategy (inp : StrategyStepInput) : StrategyStepResult :=
  let inProgressStrategySet := inp.current ≠ UpgradeStrategy.noop
  if ¬ inProgressStrategySet ∧ inp.userPreferred = StrategyID.ppndID ∧
      inp.needPPND = none then
    -- early return: not enough information to decide PPND readiness
    ⟨inp.current, true⟩
  else
    let selected : UpgradeStrategy :=
      if inProgressStrategySet then inp.current
      else if inp.userPreferred = StrategyID.ppndID then
        (if inp.needPPND = some true then UpgradeStrategy.ppnd else inp.current)
      else if inp.userPreferred = StrategyID.progressiveID ∧
          inp.upgradeStrategyType = UpgradeStrategy.progressive then
        UpgradeStrategy.progressive
      else inp.current
    let final : UpgradeStrategy :=
      match selected with
      | UpgradeStrategy.ppnd =>
        match inp.ppndDone with
        | none => UpgradeStrategy.ppnd          -- execution error: strategy stays
        | some done => if done then UpgradeStrategy.noop else UpgradeStrategy.ppnd
      | UpgradeStrategy.progressive =>
        if inp.pipelineNeedsToUpdate then
          match inp.progressiveDone with
          | none => UpgradeStrategy.progressive -- execution error: strategy stays
          | some done =>
            if done then UpgradeStrategy.noop else UpgradeStrategy.progressive
        else UpgradeStrategy.progressive
      | s => s                                  -- default branch: apply-in-place
    ⟨final, ¬ inProgressStrategySet⟩

/-! ## Reconcile mutations and ownership enforcement (`reconcile`) -/

/-- Mutation of the child pipeline object performed by a reconciliation. -/
inductive Mutation where
  | createChild
  | updateChild
  | patchChild
  | deleteChild
deriving DecidableEq, Repr

/-- Outcome of fetching the existing child pipeline
(`kubernetes.GetResource`). -/
inductive GetChildOutcome where
  | notFound
  | found (refs : List OwnerReference)
  | getError
deriving DecidableEq, Repr

/-- Environment of one `reconcile` call, for the child-mutation accounting:
whether the rollout is being deleted, the fetch outcome for the existing
child, the rollout's UID, and the mutations the strategy execution
(`processExistingPipeline`) would perform in the owned case, abstracted as
a list. -/
structure ReconcileEnv where
  deletionTimestampZero : Bool
  getExisting : GetChildOutcome
  rolloutUID : String
  ownedCaseMutations : List Mutation
deriving DecidableEq, Repr

/-- Model of `reconcile` (lines 350-422) restricted to its error result and
the mutations applied to the child: deletion path touches no child; a
missing child is created; a fetch error is returned; a found child NOT
owned by the rollout (per `checkOwnerRef`) returns an error having mutated
nothing; an owned child proceeds to `processExistingPipeline`. -/
def reconcileChildMutations (env : ReconcileEnv) :
    List Mutation × Option String :=
  if ¬ env.deletionTimestampZero then ([], none)
  else
    match env.getExisting with
    | GetChildOutcome.getError => ([], some "error getting Pipeline")
    | GetChildOutcome.notFound => ([Mutation.createChild], none)
    | GetChildOutcome.found refs =>
      if checkOwnerRef refs env.rolloutUID = false then
        ([], some "Pipeline already exists in namespace, not owned by a PipelineRollout")
      else (env.ownedCaseMutations, none)

/-! ## Status-write accounting (`processPipelineRollout`) -/

/-- Error surfaced by one `processPipelineRollout` call. -/
inductive RunError where
  | getFailed
  | reconcileFailed
  | processStatusFailed
  | specUpdateFailed
  | statusWriteFailed
deriving DecidableEq, Repr

/-- Outcome oracles of one `processPipelineRollout` call: results of the
rollout fetch, of `reconcile`, of `processPipelineStatus`, of the spec
update, and the results of successive rollout-status writes
(`r.client.Status().Update`), consumed in order; a missing entry counts as
success. -/
structure RunInput where
  getRolloutOk : Bool
  getRolloutNotFound : Bool
  reconcileErr : Bool
  processStatusErr : Bool
  needsSpecUpdate : Bool
  specUpdateErr : Bool
  deletionTimestampZero : Bool
  statusWriteResults : List Bool
deriving DecidableEq, Repr

/-- Result of the nth status-write attempt (true = success). -/
def statusWriteResult (inp : RunInput) (attempt : Nat) : Bool :=
  inp.statusWriteResults.getD attempt true

/-- Model of `processPipelineRollout` (lines 182-267) restricted to the
surfaced error and the number of rollout-status write attempts.  Each
error path attempts `updatePipelineRolloutStatusToFailed` once (a status
write marking Failed) and surfaces the write's error instead when it
fails; the success path performs the single final status write (line 249)
when the rollout is not being deleted. -/
def processPipelineRolloutRun (inp : RunInput) : Option RunError × Nat :=
  if ¬ inp.getRolloutOk then
    if inp.getRolloutNotFound then (none, 0) else (some RunError.getFailed, 0)
  else if inp.reconcileErr then
    if statusWriteResult inp 0 then (some RunError.reconcileFailed, 1)
    else (some RunError.statusWriteFailed, 1)
  else if inp.processStatusErr then
    if statusWriteResult inp 0 then (some RunError.processStatusFailed, 1)
    else (some RunError.statusWriteFailed, 1)
  else if inp.needsSpecUpdate ∧ inp.specUpdateErr then
    if statusWriteResult inp 0 then (some RunError.specUpdateFailed, 1)
    else (some RunError.statusWriteFailed, 1)
  else if inp.deletionTimestampZero then
    if statusWriteResult inp 0 then (none, 1)
    else (some RunError.statusWriteFailed, 1)
  else (none, 0)

/-! ## Concrete sample objects used by witnesses -/

/-- Sample existing child object, with labels and annotations overlapping
the desired object's. -/
def sampleExisting : GenericObject :=
  { kind := "Pipeline"
    apiVersion := "numaflow.numaproj.io/v1alpha1"
    name := "my-pipeline"
    nspace := "my-namespace"
    uid := "child-uid"
    generation := 3
    labels := [("a", "1"), ("b", "2")]
    annots := [("x", "old")]
    ownerReferences := [⟨"PipelineRollout", "rollout-uid"⟩]
    spec := JValue.obj (JObj.cons "interStepBufferServiceName"
      (JValue.str "old-isbsvc") JObj.nil)
    status := JValue.obj JObj.nil }

/-- Sample desired child object. -/
def sampleDesired : GenericObject :=
  { kind := "Pipeline"
    apiVersion := "numaflow.numaproj.io/v1alpha1"
    name := "my-pipeline"
    nspace := "my-namespace"
    uid := ""
    generation := 0
    labels := [("b", "3"), ("c", "4")]
    annots := [("x", "new")]
    ownerReferences := [⟨"PipelineRollout", "rollout-uid"⟩]
    spec := JValue.obj (JObj.cons "interStepBufferServiceName"
      (JValue.str "my-isbsvc") JObj.nil)
    status := JValue.obj JObj.nil }

/-- Sample child whose spec carries a `lifecycle.desiredPhase` entry and
nothing else in `lifecycle`. -/
def samplePausedChild : GenericObject :=
  { sampleDesired with
      spec := JValue.obj (JObj.cons "interStepBufferServiceName"
        (JValue.str "my-isbsvc")
        (JObj.cons "lifecycle"
          (JValue.obj (JObj.cons "desiredPhase" (JValue.str "Paused") JObj.nil))
          JObj.nil)) }

/-- Common decoded spec of `sampleDesired` and `samplePausedChild` after the
`lifecycle.desiredPhase` exclusion. -/
def sampleStrippedSpec : JObj :=
  JObj.cons "interStepBufferServiceName" (JValue.str "my-isbsvc") JObj.nil

/-- Sample strategy-step input: PPND in progress and reporting done. -/
def samplePPNDStepInput : StrategyStepInput :=
  { current := UpgradeStrategy.ppnd
    userPreferred := StrategyID.ppndID
    pipelineNeedsToUpdate := true
    upgradeStrategyType := UpgradeStrategy.ppnd
    needPPND := some true
    ppndDone := some true
    progressiveDone := none }

/-- Claim C8 as stated, at one input: when a status write fails, it is
retried once synchronously (two attempts) and, the retry succeeding, the
reconciliation is not reported failed because of the status write. -/
def statusWriteRetriedOnceClaim (inp : RunInput) : Prop :=
  statusWriteResult inp 0 = false → statusWriteResult inp 1 = true →
    (processPipelineRolloutRun inp).2 = 2 ∧
      (processPipelineRolloutRun inp).1 ≠ some RunError.statusWriteFailed

/-! # Helper lemmas -/

theorem findIdx_append_slash (ns tail : List Char) (h : '/' ∉ ns) :
    (ns ++ '/' :: tail).findIdx? (fun c => c = '/') = some ns.length := by
  induction ns with
  | nil => simp [List.findIdx?]
  | cons c rest ih =>
    have hc : c ≠ '/' := fun hEq => h (hEq ▸ List.mem_cons_self c rest)
    have hrest : '/' ∉ rest := fun hm => h (List.mem_cons_of_mem c hm)
    simp only [List.cons_append, List.findIdx?_cons, decide_eq_true_eq]
    rw [if_neg hc]
    simp [ih hrest]

theorem runWorkersTotalAdd_eq_sq (n : Nat) : runWorkersTotalAdd n = n * n := by
  have step : ∀ (l : List Nat) (acc : Nat),
      l.foldl (fun acc _ => acc + n) acc = acc + l.length * n := by
    intro l
    induction l with
    | nil => intro acc; simp
    | cons x xs ih =>
      intro acc
      simp only [List.foldl_cons, List.length_cons, ih]
      ring
  simp [runWorkersTotalAdd, step]

theorem lookupKV_insertKV (m : List (String × String)) (k v key) :
    lookupKV (insertKV m k v) key = if k = key then some v else lookupKV m key := by
  induction m with
  | nil =>
    by_cases hk : k = key <;> simp [insertKV, lookupKV, hk]
  | cons hd tl ih =>
    obtain ⟨k', v'⟩ := hd
    by_cases hk' : k' = k
    · subst hk'
      by_cases hk : k' = key <;> simp [insertKV, lookupKV, hk]
    · by_cases hk : k' = key
      · subst hk
        have : k ≠ k' := fun hEq => hk' hEq.symm
        simp [insertKV, hk', lookupKV, this]
      · simp [insertKV, hk', lookupKV, hk, ih]

theorem lookupKV_eq_none_of_not_mem (m : List (String × String)) (key : String)
    (h : key ∉ m.map Prod.fst) : lookupKV m key = none := by
  induction m with
  | nil => simp [lookupKV]
  | cons hd tl ih =>
    obtain ⟨k, v⟩ := hd
    simp only [List.map_cons, List.mem_cons] at h
    push_neg at h
    have hk : k ≠ key := fun hEq => h.1 hEq.symm
    simp [lookupKV, hk, ih h.2]

theorem lookupKV_unionKV (base updates : List (String × String))
    (h : (updates.map Prod.fst).Nodup) (key : String) :
    lookupKV (unionKV base updates) key =
      orOpt (lookupKV updates key) (lookupKV base key) := by
  induction updates generalizing base with
  | nil => simp [unionKV, lookupKV, orOpt]
  | cons hd tl ih =>
    obtain ⟨k, v⟩ := hd
    simp only [List.map_cons, List.nodup_cons] at h
    have step : unionKV base ((k, v) :: tl) = unionKV (insertKV base k v) tl := rfl
    rw [step, ih (insertKV base k v) h.2, lookupKV_insertKV]
    by_cases hk : k = key
    · subst hk
      have : lookupKV tl k = none :=
        lookupKV_eq_none_of_not_mem tl k h.1
      simp [lookupKV, this, orOpt]
    · have hk' : k ≠ key := hk
      simp [lookupKV, hk', orOpt]

theorem getPipelineChildResourceHealth_eq_find (conditions : List PipelineCondition) :
    getPipelineChildResourceHealth conditions =
      match conditions.find? isUnhealthySubcomponentCondition with
      | some cond => (cond.status, cond.reason)
      | none => ("True", "") := by
  induction conditions with
  | nil => simp [getPipelineChildResourceHealth]
  | cons cond rest ih =>
    by_cases hc : isUnhealthySubcomponentCondition cond
    · simp [getPipelineChildResourceHealth, List.find?, hc]
    · simp only [Bool.not_eq_true] at hc
      simp [getPipelineChildResourceHealth, List.find?, hc, ih]

/-! # Claim theorems -/

/-- C10: for every namespaced name whose namespace contains no `/`,
`keyToNamespacedName (namespacedNameToKey nn)` succeeds and returns `nn`
unchanged — the queue-key encoding round-trips, so distinct rollout
identities map to distinct queue keys and a dequeued key is processed as
the identity that was enqueued. -/
theorem keyToNamespacedName_roundtrip (nn : NamespacedName)
    (h : '/' ∉ nn.nspace) :
    keyToNamespacedName (namespacedNameToKey nn) = some nn := by
  obtain ⟨ns, nm⟩ := nn
  unfold keyToNamespacedName namespacedNameToKey
  rw [findIdx_append_slash ns nm h]
  simp only [Option.some.injEq, NamespacedName.mk.injEq]
  constructor
  · exact List.take_left ns ('/' :: nm)
  · rw [show ns ++ '/' :: nm = (ns ++ ['/']) ++ nm by simp]
    exact List.drop_left' (by simp)

theorem keyToNamespacedName_roundtrip_witness :
    '/' ∉ (['n', 's'] : List Char) ∧
      keyToNamespacedName (namespacedNameToKey ⟨['n', 's'], ['p', '/', 'q']⟩) =
        some ⟨['n', 's'], ['p', '/', 'q']⟩ :=
  ⟨by decide, keyToNamespacedName_roundtrip ⟨['n', 's'], ['p', '/', 'q']⟩ (by decide)⟩

/-- C7 counterexample: on success with `result.Requeue = true` the code
re-adds via `AddRateLimited` (rate-limited backoff), not immediately as the
claim states. -/
theorem processQueueKeyReAdd_requeue_not_immediate :
    processQueueKeyReAdd false true 0 ≠ specReAddDecision false true 0 := by
  decide

/-- C7 amended: the worker's re-add decision is: on processing error the key
is re-added with rate-limited backoff; on success with an explicit requeue
request it is re-added through the same rate-limited path (not immediately);
on success with requeue-after(d), d > 0, it is scheduled after exactly d;
otherwise it is not re-added. -/
theorem processQueueKeyReAdd_spec (errOccurred requeue : Bool)
    (requeueAfter : Nat) :
    (errOccurred = true →
      processQueueKeyReAdd errOccurred requeue requeueAfter = .addRateLimited) ∧
    (errOccurred = false → requeue = true →
      processQueueKeyReAdd errOccurred requeue requeueAfter = .addRateLimited) ∧
    (errOccurred = false → requeue = false → 0 < requeueAfter →
      processQueueKeyReAdd errOccurred requeue requeueAfter = .addAfter requeueAfter) ∧
    (errOccurred = false → requeue = false → requeueAfter = 0 →
      processQueueKeyReAdd errOccurred requeue requeueAfter = .noReAdd) := by
  cases errOccurred <;> cases requeue <;>
    · simp [processQueueKeyReAdd]
      try omega

theorem processQueueKeyReAdd_spec_witness :
    processQueueKeyReAdd false false 30 = .addAfter 30 :=
  (processQueueKeyReAdd_spec false false 30).2.2.1 rfl rfl (by decide)

/-- C9: the total `runWorkers` adds to the shutdown wait-group does NOT
equal the number of `Done` signals the workers emit: the source executes
`shutdownWorkerWaitGroup.Add(numWorkers)` inside the loop over the
`numWorkers` workers, adding `16 * 16 = 256`, while the 16 workers emit
only 16 `Done` calls on queue shutdown, so `Shutdown`'s `Wait` can never
terminate. -/
theorem runWorkers_waitgroup_mismatch :
    runWorkersTotalAdd numWorkers = 256 ∧
      workersTotalDone numWorkers = 16 ∧
      runWorkersTotalAdd numWorkers ≠ workersTotalDone numWorkers := by
  refine ⟨?_, rfl, ?_⟩ <;>
    · simp [runWorkersTotalAdd_eq_sq, numWorkers, workersTotalDone]

/-- Unfolding of the pause-timing update on an explicit pair of
timestamps. -/
theorem pauseCondition_unfold (phase : String) (now b e : Nat) :
    setChildResourcesPauseCondition phase now ⟨b, e⟩ =
      if phase = "Paused" ∨ phase = "Pausing" then
        (if b = 0 ∨ ¬ e < b then ⟨now, e⟩ else ⟨b, e⟩)
      else
        (if b ≠ 0 ∧ ¬ b < e then ⟨b, now⟩ else ⟨b, e⟩) := rfl

/-- C6: for the pause-timing update, in phase Paused or Pausing the begin
timestamp is advanced only when it does not already lie after the end
timestamp (and the end timestamp is untouched); in any other phase the end
timestamp is advanced only when the begin timestamp has been set and the
end timestamp is not already after it (and the begin timestamp is
untouched); and a second reconciliation of the same episode changes
neither timestamp. -/
theorem setChildResourcesPauseCondition_spec (phase : String) (ps : PauseStatus)
    (now1 now2 : Nat)
    (hb : ps.lastPauseBeginTime < now1) (he : ps.lastPauseEndTime < now1) :
    ((phase = "Paused" ∨ phase = "Pausing") →
      ((setChildResourcesPauseCondition phase now1 ps).lastPauseBeginTime ≠
          ps.lastPauseBeginTime →
        ¬ ps.lastPauseEndTime < ps.lastPauseBeginTime) ∧
      (setChildResourcesPauseCondition phase now1 ps).lastPauseEndTime =
        ps.lastPauseEndTime) ∧
    (¬ (phase = "Paused" ∨ phase = "Pausing") →
      ((setChildResourcesPauseCondition phase now1 ps).lastPauseEndTime ≠
          ps.lastPauseEndTime →
        ps.lastPauseBeginTime ≠ 0 ∧
          ¬ ps.lastPauseBeginTime < ps.lastPauseEndTime) ∧
      (setChildResourcesPauseCondition phase now1 ps).lastPauseBeginTime =
        ps.lastPauseBeginTime) ∧
    setChildResourcesPauseCondition phase now2
        (setChildResourcesPauseCondition phase now1 ps) =
      setChildResourcesPauseCondition phase now1 ps := by
  obtain ⟨b, e⟩ := ps
  simp only at hb he
  by_cases hp : phase = "Paused" ∨ phase = "Pausing"
  · refine ⟨fun _ => ?_, fun hnp => absurd hp hnp, ?_⟩
    · by_cases hg : b = 0 ∨ ¬ e < b
      · rw [pauseCondition_unfold, if_pos hp, if_pos hg]
        exact ⟨fun _ => show ¬ e < b by omega, rfl⟩
      · rw [pauseCondition_unfold, if_pos hp, if_neg hg]
        exact ⟨fun hchange => absurd rfl hchange, rfl⟩
    · by_cases hg : b = 0 ∨ ¬ e < b
      · rw [pauseCondition_unfold phase now1, if_pos hp, if_pos hg,
          pauseCondition_unfold, if_pos hp,
          if_neg (show ¬ (now1 = 0 ∨ ¬ e < now1) by omega)]
      · rw [pauseCondition_unfold phase now1, if_pos hp, if_neg hg,
          pauseCondition_unfold, if_pos hp, if_neg hg]
  · refine ⟨fun hp2 => absurd hp2 hp, fun _ => ?_, ?_⟩
    · by_cases hg : b ≠ 0 ∧ ¬ b < e
      · rw [pauseCondition_unfold, if_neg hp, if_pos hg]
        exact ⟨fun _ => show b ≠ 0 ∧ ¬ b < e from hg, rfl⟩
      · rw [pauseCondition_unfold, if_neg hp, if_neg hg]
        exact ⟨fun hchange => absurd rfl hchange, rfl⟩
    · by_cases hg : b ≠ 0 ∧ ¬ b < e
      · rw [pauseCondition_unfold phase now1, if_neg hp, if_pos hg,
          pauseCondition_unfold, if_neg hp,
          if_neg (show ¬ (b ≠ 0 ∧ ¬ b < now1) by omega)]
      · rw [pauseCondition_unfold phase now1, if_neg hp, if_neg hg,
          pauseCondition_unfold, if_neg hp, if_neg hg]

theorem setChildResourcesPauseCondition_spec_witness :
    ((5 : Nat) < 7 ∧ (0 : Nat) < 7) ∧
      setChildResourcesPauseCondition "Paused" 9
          (setChildResourcesPauseCondition "Paused" 7 ⟨5, 0⟩) =
        setChildResourcesPauseCondition "Paused" 7 ⟨5, 0⟩ :=
  ⟨⟨by decide, by decide⟩,
    (setChildResourcesPauseCondition_spec "Paused" ⟨5, 0⟩ 7 9
      (by decide) (by decide)).2.2⟩

/-- C5 counterexample: a VerticesHealthy condition with status False and a
reason other than Progressing, phase Running, generation current: the code
lands in the rule-3 branch (Unhealthy reason PipelineFailed), while the
claim's rule (1) ("any subcomponent condition non-true") demands Unhealthy
reason Progressing. -/
theorem healthProjection_claim_counterexample :
    setChildResourcesHealthCondition "Running" 1 1
        [⟨"VerticesHealthy", "False", "VertexFailed"⟩] ≠
      claimedHealthProjection "Running" 1 1
        [⟨"VerticesHealthy", "False", "VertexFailed"⟩] := by
  decide

/-- C5 amended: the health projection evaluates in strict first-match-wins
precedence where rule (1) fires when the FIRST non-true subcomponent
condition (in list order) carries reason Progressing, or the observed
generation is behind; rule (3) tests that same first condition's status for
False, and rule (6) for Unknown; rules (2), (4), (5), (7) are as claimed. -/
theorem setChildResourcesHealthCondition_amended (phase : String)
    (generation observedGeneration : Int)
    (conditions : List PipelineCondition) :
    setChildResourcesHealthCondition phase generation observedGeneration conditions =
      amendedHealthProjection phase generation observedGeneration conditions := by
  cases h : conditions.find? isUnhealthySubcomponentCondition with
  | none =>
    have h1 : ("" : String) ≠ "Progressing" := by decide
    have h2 : ("True" : String) ≠ "False" := by decide
    have h3 : ("True" : String) ≠ "Unknown" := by decide
    simp [setChildResourcesHealthCondition, amendedHealthProjection,
      firstUnhealthySubcomponent, getPipelineChildResourceHealth_eq_find, h,
      h1, h2, h3]
  | some cond =>
    simp [setChildResourcesHealthCondition, amendedHealthProjection,
      firstUnhealthySubcomponent, getPipelineChildResourceHealth_eq_find, h]

/-- C3: merge returns an object whose spec is the desired spec, whose labels
and annotations are the key-wise union with the desired object winning on
collisions, and whose every other field equals the existing object's (the
function is pure: it starts from a copy and mutates neither input). -/
theorem merge_spec (e d : GenericObject)
    (hL : (d.labels.map Prod.fst).Nodup)
    (hA : (d.annots.map Prod.fst).Nodup) :
    (merge e d).spec = d.spec ∧
    (∀ key, lookupKV (merge e d).labels key =
      orOpt (lookupKV d.labels key) (lookupKV e.labels key)) ∧
    (∀ key, lookupKV (merge e d).annots key =
      orOpt (lookupKV d.annots key) (lookupKV e.annots key)) ∧
    (merge e d).kind = e.kind ∧
    (merge e d).apiVersion = e.apiVersion ∧
    (merge e d).name = e.name ∧
    (merge e d).nspace = e.nspace ∧
    (merge e d).uid = e.uid ∧
    (merge e d).generation = e.generation ∧
    (merge e d).ownerReferences = e.ownerReferences ∧
    (merge e d).status = e.status := by
  refine ⟨rfl, ?_, ?_, rfl, rfl, rfl, rfl, rfl, rfl, rfl, rfl⟩
  · intro key
    exact lookupKV_unionKV e.labels d.labels hL key
  · intro key
    exact lookupKV_unionKV e.annots d.annots hA key

theorem merge_spec_witness :
    ((sampleDesired.labels.map Prod.fst).Nodup ∧
      (sampleDesired.annots.map Prod.fst).Nodup) ∧
      lookupKV (merge sampleExisting sampleDesired).labels "b" = some "3" ∧
      lookupKV (merge sampleExisting sampleDesired).labels "a" = some "1" ∧
      (merge sampleExisting sampleDesired).spec = sampleDesired.spec :=
  ⟨⟨by decide, by decide⟩,
    by
      rw [(merge_spec sampleExisting sampleDesired (by decide) (by decide)).2.1 "b"]
      decide,
    by
      rw [(merge_spec sampleExisting sampleDesired (by decide) (by decide)).2.1 "a"]
      decide,
    (merge_spec sampleExisting sampleDesired (by decide) (by decide)).1⟩

/-- C4: for children whose specs decode successfully, childNeedsUpdating
returns false when the decoded specs agree once `lifecycle.desiredPhase`
(and an emptied `lifecycle` map) is removed from both, and in general
returns true exactly when the stripped specs differ. -/
theorem childNeedsUpdating_spec (a b : GenericObject) (ma mb : JObj)
    (ha : withoutDesiredPhase a = some ma) (hb : withoutDesiredPhase b = some mb) :
    (ma = mb → childNeedsUpdating a b = some false) ∧
    (childNeedsUpdating a b = some true ↔ ma ≠ mb) := by
  by_cases h : ma = mb <;> simp [childNeedsUpdating, ha, hb, h]

theorem childNeedsUpdating_spec_witness :
    (withoutDesiredPhase samplePausedChild = some sampleStrippedSpec ∧
      withoutDesiredPhase sampleDesired = some sampleStrippedSpec) ∧
      childNeedsUpdating samplePausedChild sampleDesired = some false :=
  ⟨⟨by decide, by decide⟩,
    (childNeedsUpdating_spec samplePausedChild sampleDesired
      sampleStrippedSpec sampleStrippedSpec (by decide) (by decide)).1 rfl⟩

/-- C1: for every reconciliation of an existing pipeline whose in-progress
strategy is one of {NoOp, PPND, Progressive}: the strategy after the call
is again one of those; and once the observed strategy is non-NoOp, the
decision logic for picking a new strategy is not evaluated at all, the
strategy can only stay the same or become NoOp (never a different non-NoOp
value), and it becomes NoOp only when the owning strategy's own execution
reports done (`unsetStrategy` on its completion path). -/
theorem processExistingPipelineStrategy_exclusive (inp : StrategyStepInput)
    (hcur : inp.current = UpgradeStrategy.noop ∨ inp.current = UpgradeStrategy.ppnd ∨
      inp.current = UpgradeStrategy.progressive) :
    ((processExistingPipelineStrategy inp).strategy = UpgradeStrategy.noop ∨
      (processExistingPipelineStrategy inp).strategy = UpgradeStrategy.ppnd ∨
      (processExistingPipelineStrategy inp).strategy = UpgradeStrategy.progressive) ∧
    (inp.current ≠ UpgradeStrategy.noop →
      (processExistingPipelineStrategy inp).decisionEvaluated = false ∧
      ((processExistingPipelineStrategy inp).strategy = inp.current ∨
        (processExistingPipelineStrategy inp).strategy = UpgradeStrategy.noop) ∧
      ((processExistingPipelineStrategy inp).strategy = UpgradeStrategy.noop →
        (inp.current = UpgradeStrategy.ppnd ∧ inp.ppndDone = some true) ∨
        (inp.current = UpgradeStrategy.progressive ∧
          inp.pipelineNeedsToUpdate = true ∧ inp.progressiveDone = some true))) := by
  obtain ⟨cur, pref, upd, typ, nppnd, pdone, gdone⟩ := inp
  cases cur with
  | apply => simp at hcur
  | noop =>
    refine ⟨?_, fun h => absurd rfl h⟩
    cases pref with
    | ppndID =>
      rcases nppnd with _ | b
      · simp [processExistingPipelineStrategy]
      · cases b
        · simp [processExistingPipelineStrategy]
        · rcases pdone with _ | c
          · simp [processExistingPipelineStrategy]
          · cases c <;> simp [processExistingPipelineStrategy]
    | progressiveID =>
      by_cases ht : typ = UpgradeStrategy.progressive
      · subst ht
        cases upd
        · simp [processExistingPipelineStrategy]
        · rcases gdone with _ | c
          · simp [processExistingPipelineStrategy]
          · cases c <;> simp [processExistingPipelineStrategy]
      · simp [processExistingPipelineStrategy, ht]
    | otherID => simp [processExistingPipelineStrategy]
  | ppnd =>
    rcases pdone with _ | c
    · simp [processExistingPipelineStrategy]
    · cases c <;> simp [processExistingPipelineStrategy]
  | progressive =>
    cases upd
    · simp [processExistingPipelineStrategy]
    · rcases gdone with _ | c
      · simp [processExistingPipelineStrategy]
      · cases c <;> simp [processExistingPipelineStrategy]

theorem processExistingPipelineStrategy_exclusive_witness :
    (processExistingPipelineStrategy samplePPNDStepInput).decisionEvaluated = false ∧
      ((processExistingPipelineStrategy samplePPNDStepInput).strategy =
          samplePPNDStepInput.current ∨
        (processExistingPipelineStrategy samplePPNDStepInput).strategy =
          UpgradeStrategy.noop) :=
  ⟨((processExistingPipelineStrategy_exclusive samplePPNDStepInput
      (by decide)).2 (by decide)).1,
    ((processExistingPipelineStrategy_exclusive samplePPNDStepInput
      (by decide)).2 (by decide)).2.1⟩

/-- C2: when the existing child pipeline is found and its owner references
contain no entry with kind PipelineRollout and the rollout's UID,
reconcile returns the ownership-conflict error having performed zero
mutations on that child. -/
theorem reconcile_ownership_enforcement (env : ReconcileEnv)
    (refs : List OwnerReference)
    (hdel : env.deletionTimestampZero = true)
    (hfound : env.getExisting = GetChildOutcome.found refs)
    (hnotowned : checkOwnerRef refs env.rolloutUID = false) :
    reconcileChildMutations env =
      ([], some "Pipeline already exists in namespace, not owned by a PipelineRollout") := by
  obtain ⟨dz, ge, uid, muts⟩ := env
  subst hdel
  simp only at hfound hnotowned
  subst hfound
  simp [reconcileChildMutations, hnotowned]

theorem reconcile_ownership_enforcement_witness :
    reconcileChildMutations
        ⟨true, GetChildOutcome.found [⟨"Deployment", "other-uid"⟩], "rollout-uid",
          [Mutation.updateChild]⟩ =
      ([], some "Pipeline already exists in namespace, not owned by a PipelineRollout") :=
  reconcile_ownership_enforcement
    ⟨true, GetChildOutcome.found [⟨"Deployment", "other-uid"⟩], "rollout-uid",
      [Mutation.updateChild]⟩
    [⟨"Deployment", "other-uid"⟩] (by decide) (by decide) (by decide)

/-- C8 counterexample: with every stage succeeding and status-write results
[false, true] (first attempt fails, a retry would succeed), the code makes
a single attempt and reports the reconciliation failed, refuting the
claimed synchronous one-retry behaviour. -/
theorem statusWrite_claim_counterexample :
    ¬ statusWriteRetriedOnceClaim
        ⟨true, false, false, false, false, false, true, [false, true]⟩ := by
  unfold statusWriteRetriedOnceClaim
  decide

/-- C8 amended: a reconciliation performs at most one rollout-status write
attempt (after a reconcile, status-processing, or spec-update error, one
status write marking Failed is attempted; the success path performs the one
final status write); a failing status write is never retried synchronously
— its error is surfaced immediately as the reported failure, and retrying
happens only through the queue's backoff re-add. -/
theorem processPipelineRolloutRun_spec (inp : RunInput) :
    (processPipelineRolloutRun inp).2 ≤ 1 ∧
    ((processPipelineRolloutRun inp).2 = 1 → statusWriteResult inp 0 = false →
      (processPipelineRolloutRun inp).1 = some RunError.statusWriteFailed) := by
  obtain ⟨g, gn, re, pse, nsu, sue, dz, res⟩ := inp
  cases hr : statusWriteResult ⟨g, gn, re, pse, nsu, sue, dz, res⟩ 0 <;>
    cases g <;> cases gn <;> cases re <;> cases pse <;> cases nsu <;>
    cases sue <;> cases dz <;>
    simp_all [processPipelineRolloutRun]

theorem processPipelineRolloutRun_spec_witness :
    (processPipelineRolloutRun
        ⟨true, false, false, false, false, false, true, [false]⟩).2 = 1 ∧
      statusWriteResult ⟨true, false, false, false, false, false, true, [false]⟩ 0 = false ∧
      (processPipelineRolloutRun
          ⟨true, false, false, false, false, false, true, [false]⟩).1 =
        some RunError.statusWriteFailed :=
  ⟨by decide, by decide,
    (processPipelineRolloutRun_spec
        ⟨true, false, false, false, false, false, true, [false]⟩).2
      (by decide) (by decide)⟩

end Numaplane
